import Mathlib

/-!
Verification of the temporal tap-pattern decoder (SoundTapDetector) from
src/lib/tapDetector.py.

The Python class is embedded as a Lean structure holding both the
configuration fields (set in the constructor and never mutated) and the
mutable decoder state.  Methods become pure functions from a detector
value (plus the current monotonic time where the source reads
time.ticks_ms) to a new detector value, or to a pair of result and new
value.  MicroPython time.ticks_diff a b is modelled as the exact integer
difference a - b: all properties here concern runs whose timestamps span
far less than the tick wrap period, where ticks_diff coincides with
subtraction.  Python integers are modelled as Int (counters and
durations); the custom binary string of tap characters is modelled as
List Char over the characters used by the source, a period for a short
gap and a dash for a long gap.
-/

/-- State and configuration of the Python class SoundTapDetector.
Config fields mirror the constructor parameters (the GPIO pin number and
interrupt trigger type are hardware bookkeeping with no effect on the
decoding logic and are omitted).  State fields mirror the underscored
instance attributes. -/
structure SoundTapDetector where
  debounce_time_ms : Int
  short_tap_max_delay_ms : Int
  long_tap_min_delay_ms : Int
  total_taps_to_expect : Int
  sequence_timeout_ms : Int
  tap_detected_flag : Bool
  last_tap_time : Int
  current_binary_sequence : List Char
  last_sequence_tap_time : Int
  full_sequence_ready : Bool
  current_tap_count : Int
  deriving Repr, DecidableEq

/-- MicroPython time.ticks_diff, modelled as exact subtraction (no tick
counter wrap-around within the runs considered). -/
def ticks_diff (a b : Int) : Int := a - b

/-- The constructor SoundTapDetector.__init__: records the configuration
and zeroes all mutable state.  The source performs no validation of any
parameter; construction always succeeds. -/
def SoundTapDetector.init (debounce_time_ms short_tap_max_delay_ms
    long_tap_min_delay_ms total_taps_to_expect sequence_timeout_ms : Int) :
    SoundTapDetector where
  debounce_time_ms := debounce_time_ms
  short_tap_max_delay_ms := short_tap_max_delay_ms
  long_tap_min_delay_ms := long_tap_min_delay_ms
  total_taps_to_expect := total_taps_to_expect
  sequence_timeout_ms := sequence_timeout_ms
  tap_detected_flag := false
  last_tap_time := 0
  current_binary_sequence := []
  last_sequence_tap_time := 0
  full_sequence_ready := false
  current_tap_count := 0

/-- SoundTapDetector.reset_sequence: clears the binary sequence, the
last-sequence-tap time, the completion flag and the tap counter.  It does
NOT touch last_tap_time (the debounce reference) nor tap_detected_flag. -/
def SoundTapDetector.reset_sequence (d : SoundTapDetector) : SoundTapDetector :=
  { d with
    current_binary_sequence := []
    last_sequence_tap_time := 0
    full_sequence_ready := false
    current_tap_count := 0 }

/-- SoundTapDetector._handle_tap_interrupt: the pulse-ingestion entry
point, called with the current monotonic time.  Faithful transcription of
the source: debounce guard (strict >), set the new-tap flag, implicit
reset when a completed sequence is still pending, increment the physical
tap counter, classify the gap from the previous sequence tap (short when
time_diff <= short_tap_max_delay_ms, long otherwise; the final expected
tap also sets the completion flag), then update both time references. -/
def SoundTapDetector.handle_tap_interrupt (d : SoundTapDetector)
    (current_time : Int) : SoundTapDetector :=
  if ticks_diff current_time d.last_tap_time > d.debounce_time_ms then
    let d1 := { d with tap_detected_flag := true }
    let d2 := if d1.full_sequence_ready then d1.reset_sequence else d1
    let d3 := { d2 with current_tap_count := d2.current_tap_count + 1 }
    let d4 :=
      if d3.current_tap_count ≤ d3.total_taps_to_expect then
        if d3.current_tap_count = 1 then
          d3
        else
          let time_diff := ticks_diff current_time d3.last_sequence_tap_time
          if d3.current_tap_count < d3.total_taps_to_expect then
            if time_diff ≤ d3.short_tap_max_delay_ms then
              { d3 with current_binary_sequence := d3.current_binary_sequence ++ ['.'] }
            else
              { d3 with current_binary_sequence := d3.current_binary_sequence ++ ['-'] }
          else
            if time_diff ≤ d3.short_tap_max_delay_ms then
              { d3 with current_binary_sequence := d3.current_binary_sequence ++ ['.'],
                        full_sequence_ready := true }
            else
              { d3 with current_binary_sequence := d3.current_binary_sequence ++ ['-'],
                        full_sequence_ready := true }
      else d3
    { d4 with last_sequence_tap_time := current_time, last_tap_time := current_time }
  else d

/-- SoundTapDetector.is_tap_detected: one-shot read of the new-tap flag. -/
def SoundTapDetector.is_tap_detected (d : SoundTapDetector) :
    Bool × SoundTapDetector :=
  if d.tap_detected_flag then (true, { d with tap_detected_flag := false })
  else (false, d)

/-- SoundTapDetector.check_for_timeout: the timeout polling entry point,
called with the current monotonic time.  When a sequence is being built
(counter positive, completion flag clear) and more than
sequence_timeout_ms elapsed since the last sequence tap, performs a full
reset_sequence and reports true; otherwise reports false unchanged. -/
def SoundTapDetector.check_for_timeout (d : SoundTapDetector)
    (current_time : Int) : Bool × SoundTapDetector :=
  if 0 < d.current_tap_count ∧ d.full_sequence_ready = false then
    if ticks_diff current_time d.last_sequence_tap_time > d.sequence_timeout_ms then
      (true, d.reset_sequence)
    else (false, d)
  else (false, d)

/-- SoundTapDetector.is_sequence_complete: reports completion.  When the
completion flag is set and the accumulated sequence has the expected
length (total_taps_to_expect - 1), clears the flag and reports true; when
the flag is set but the length is wrong, resets and reports false;
otherwise reports false unchanged. -/
def SoundTapDetector.is_sequence_complete (d : SoundTapDetector) :
    Bool × SoundTapDetector :=
  if d.full_sequence_ready then
    if (d.current_binary_sequence.length : Int) = d.total_taps_to_expect - 1 then
      (true, { d with full_sequence_ready := false })
    else
      (false, d.reset_sequence)
  else (false, d)

/-- SoundTapDetector.get_binary_sequence: read accessor for the
accumulated sequence. -/
def SoundTapDetector.get_binary_sequence (d : SoundTapDetector) : List Char :=
  d.current_binary_sequence

/-- SoundTapDetector.binary_sequence_to_integer with an explicit
argument: validates that every character is a period or a dash, rewrites
periods to the digit 0 and dashes to the digit 1 (the two str.replace
calls), checks the length against total_taps_to_expect - 1, and parses
the digit string in base 2 (Python int(s, 2), which fails on an empty
string and on any non-digit; the source returns None on every failure
path, modelled as Option.none). -/
def SoundTapDetector.binary_sequence_to_integer (d : SoundTapDetector)
    (binary_str : List Char) : Option Nat :=
  if binary_str.all (fun c => c = '.' || c = '-') then
    let standard_binary_str :=
      binary_str.map (fun c => if c = '.' then '0' else if c = '-' then '1' else c)
    if (standard_binary_str.length : Int) = d.total_taps_to_expect - 1 then
      if standard_binary_str = [] then none
      else if standard_binary_str.all (fun c => c = '0' || c = '1') then
        some (standard_binary_str.foldl
          (fun acc c => 2 * acc + (if c = '1' then 1 else 0)) 0)
      else none
    else none
  else none

/-- Running the ingestion entry point over a list of pulse timestamps in
order (the main loop delivers pulses one interrupt at a time). -/
def run_taps (d : SoundTapDetector) (ts : List Int) : SoundTapDetector :=
  ts.foldl (fun s t => s.handle_tap_interrupt t) d

/-- The chain condition under which every pulse in the list passes the
debounce guard: each timestamp strictly exceeds its predecessor (starting
from the given debounce reference) by more than the debounce interval. -/
def accepted_chain (debounce : Int) : Int → List Int → Prop
  | _, [] => True
  | prev, t :: ts => debounce < t - prev ∧ accepted_chain debounce t ts

/-- The gap classification of a pulse train: one character per gap
between consecutive timestamps, a period when the gap is at most
short_max and a dash otherwise, exactly as the ingestion code classifies. -/
def gaps_code (short_max : Int) : Int → List Int → List Char
  | _, [] => []
  | prev, t :: ts =>
      (if t - prev ≤ short_max then '.' else '-') :: gaps_code short_max t ts

/-- Big-endian value of a tap-character sequence: dash = 1, anything
else = 0, first character most significant.  This is the value int(s, 2)
computes on the rewritten digit string. -/
def bits_value (s : List Char) : Nat :=
  s.foldl (fun acc c => 2 * acc + (if c = '-' then 1 else 0)) 0

/-- States reachable from a starting detector by any interleaving of
pulse ingestion, timeout polling and explicit reset. -/
inductive Reachable (d0 : SoundTapDetector) : SoundTapDetector → Prop
  | base : Reachable d0 d0
  | tap {d : SoundTapDetector} (t : Int) :
      Reachable d0 d → Reachable d0 (d.handle_tap_interrupt t)
  | poll {d : SoundTapDetector} (now : Int) :
      Reachable d0 d → Reachable d0 (d.check_for_timeout now).2
  | reset {d : SoundTapDetector} :
      Reachable d0 d → Reachable d0 d.reset_sequence

/-! ## Step lemmas for the ingestion entry point -/

/-- A pulse within the debounce window of the last accepted pulse is
discarded with no state change at all. -/
theorem SoundTapDetector.handle_tap_rejected (d : SoundTapDetector) (t : Int)
    (h : ticks_diff t d.last_tap_time ≤ d.debounce_time_ms) :
    d.handle_tap_interrupt t = d := by
  simp only [SoundTapDetector.handle_tap_interrupt]
  rw [if_neg (not_lt.mpr h)]

/-- An accepted pulse arriving with no sequence in progress (counter 0,
completion flag clear) becomes pulse number one: counter set to 1, no
character appended, both time references moved to the pulse time. -/
theorem SoundTapDetector.handle_tap_first (d : SoundTapDetector) (t : Int)
    (hacc : d.debounce_time_ms < ticks_diff t d.last_tap_time)
    (hr : d.full_sequence_ready = false) (hc : d.current_tap_count = 0) :
    d.handle_tap_interrupt t =
      { d with tap_detected_flag := true, current_tap_count := 1,
               last_sequence_tap_time := t, last_tap_time := t } := by
  simp [SoundTapDetector.handle_tap_interrupt, hr, hc, hacc]

/-- An accepted pulse in mid-sequence (counter at least 1, next counter
value still below the expected total) appends the classification of the
gap since the previous sequence tap and leaves the completion flag
clear. -/
theorem SoundTapDetector.handle_tap_middle (d : SoundTapDetector) (t : Int)
    (hacc : d.debounce_time_ms < ticks_diff t d.last_tap_time)
    (hr : d.full_sequence_ready = false)
    (h1 : 1 ≤ d.current_tap_count)
    (h2 : d.current_tap_count + 1 < d.total_taps_to_expect) :
    d.handle_tap_interrupt t =
      { d with tap_detected_flag := true,
               current_tap_count := d.current_tap_count + 1,
               current_binary_sequence := d.current_binary_sequence ++
                 [if ticks_diff t d.last_sequence_tap_time ≤ d.short_tap_max_delay_ms
                   then '.' else '-'],
               last_sequence_tap_time := t, last_tap_time := t } := by
  have hne : d.current_tap_count + 1 ≠ 1 := by omega
  have hle : d.current_tap_count + 1 ≤ d.total_taps_to_expect := le_of_lt h2
  simp [SoundTapDetector.handle_tap_interrupt, hr, hacc, hne, hle, h2]
  split <;> simp

/-- The final accepted pulse of a sequence (next counter value equal to
the expected total, counter at least 1) appends the classification of the
last gap and sets the completion flag. -/
theorem SoundTapDetector.handle_tap_final (d : SoundTapDetector) (t : Int)
    (hacc : d.debounce_time_ms < ticks_diff t d.last_tap_time)
    (hr : d.full_sequence_ready = false)
    (h1 : 1 ≤ d.current_tap_count)
    (h2 : d.current_tap_count + 1 = d.total_taps_to_expect) :
    d.handle_tap_interrupt t =
      { d with tap_detected_flag := true,
               current_tap_count := d.current_tap_count + 1,
               current_binary_sequence := d.current_binary_sequence ++
                 [if ticks_diff t d.last_sequence_tap_time ≤ d.short_tap_max_delay_ms
                   then '.' else '-'],
               full_sequence_ready := true,
               last_sequence_tap_time := t, last_tap_time := t } := by
  have hne : d.current_tap_count + 1 ≠ 1 := by omega
  have hle : d.current_tap_count + 1 ≤ d.total_taps_to_expect := le_of_eq h2
  have hnlt : ¬ d.current_tap_count + 1 < d.total_taps_to_expect := by omega
  simp [SoundTapDetector.handle_tap_interrupt, hr, hacc, hne, hle, hnlt]
  split <;> simp

/-- An accepted pulse arriving while the completion flag is still set
performs the implicit reset and then counts as pulse number one. -/
theorem SoundTapDetector.handle_tap_after_complete (d : SoundTapDetector) (t : Int)
    (hr : d.full_sequence_ready = true)
    (hacc : d.debounce_time_ms < ticks_diff t d.last_tap_time) :
    d.handle_tap_interrupt t =
      { d with tap_detected_flag := true, current_binary_sequence := [],
               full_sequence_ready := false, current_tap_count := 1,
               last_sequence_tap_time := t, last_tap_time := t } := by
  simp [SoundTapDetector.handle_tap_interrupt, SoundTapDetector.reset_sequence, hr, hacc]

/-! ## Claim C7: debounce discard is a frame effect -/

/-- C7: every pulse arriving less than debounce_time_ms after the last
accepted pulse is discarded with no state change whatsoever: the whole
detector value, hence pulses seen, accumulated code, last accepted time,
completion flag and new-pulse flag, is unchanged. -/
theorem c7_debounce_discard (d : SoundTapDetector) (t : Int)
    (h : ticks_diff t d.last_tap_time < d.debounce_time_ms) :
    d.handle_tap_interrupt t = d :=
  SoundTapDetector.handle_tap_rejected d t (le_of_lt h)

/-- Witness for C7: with the default configuration, a pulse 100 ms after
an accepted pulse (debounce window 250 ms) changes nothing. -/
theorem c7_debounce_discard_witness :
    ((SoundTapDetector.init 250 500 501 7 2000).handle_tap_interrupt 300).handle_tap_interrupt 400
      = (SoundTapDetector.init 250 500 501 7 2000).handle_tap_interrupt 300 :=
  c7_debounce_discard
    ((SoundTapDetector.init 250 500 501 7 2000).handle_tap_interrupt 300) 400 (by decide)

/-! ## Claim C10: the boundary pulse at exactly the debounce interval -/

/-- C10: a pulse arriving at most (in particular exactly)
debounce_time_ms after the last accepted pulse is discarded unchanged;
contrapositively, ingestion changes state only when the elapsed time
strictly exceeds the debounce interval, matching the strict comparison in
the source. -/
theorem c10_debounce_equality (d : SoundTapDetector) (t : Int)
    (h : ticks_diff t d.last_tap_time ≤ d.debounce_time_ms) :
    d.handle_tap_interrupt t = d :=
  SoundTapDetector.handle_tap_rejected d t h

/-- Witness for C10: a pulse exactly 250 ms (the debounce interval) after
an accepted pulse is discarded. -/
theorem c10_debounce_equality_witness :
    ((SoundTapDetector.init 250 500 501 7 2000).handle_tap_interrupt 300).handle_tap_interrupt 550
      = (SoundTapDetector.init 250 500 501 7 2000).handle_tap_interrupt 300 :=
  c10_debounce_equality
    ((SoundTapDetector.init 250 500 501 7 2000).handle_tap_interrupt 300) 550 (by decide)

/-! ## Claim C9: pulse after completion performs an implicit reset -/

/-- C9: in any state with the completion flag set, a debounce-accepted
pulse first performs a full implicit reset (sequence cleared, completion
flag cleared, counter cleared, the old unread code discarded) and is then
counted as pulse number one of a fresh sequence with no character
appended; both time references move to the pulse time and the new-pulse
flag is set.  Stated as a complete characterisation of the new state. -/
theorem c9_post_completion_pulse (d : SoundTapDetector) (t : Int)
    (hr : d.full_sequence_ready = true)
    (hacc : d.debounce_time_ms < ticks_diff t d.last_tap_time) :
    d.handle_tap_interrupt t =
      { d with tap_detected_flag := true, current_binary_sequence := [],
               full_sequence_ready := false, current_tap_count := 1,
               last_sequence_tap_time := t, last_tap_time := t } :=
  SoundTapDetector.handle_tap_after_complete d t hr hacc

/-- Witness for C9: after a completed 2-tap sequence, a later pulse
starts a fresh sequence as pulse number one with an empty code. -/
theorem c9_post_completion_pulse_witness :
    (((SoundTapDetector.init 250 500 501 2 2000).handle_tap_interrupt 300).handle_tap_interrupt 600).handle_tap_interrupt 900
      = { ((SoundTapDetector.init 250 500 501 2 2000).handle_tap_interrupt 300).handle_tap_interrupt 600 with
          tap_detected_flag := true, current_binary_sequence := [],
          full_sequence_ready := false, current_tap_count := 1,
          last_sequence_tap_time := 900, last_tap_time := 900 } :=
  c9_post_completion_pulse
    (((SoundTapDetector.init 250 500 501 2 2000).handle_tap_interrupt 300).handle_tap_interrupt 600)
    900 (by decide) (by decide)

/-! ## Claim C3: acceptance of the first pulse after a reset -/

/-- Counterexample to C3: the claim says the debounce check can never
reject the first pulse that follows a reset, however close in time it is
to earlier pulses.  In the source, reset_sequence leaves last_tap_time
untouched, so after an accepted pulse at 300 ms and an explicit reset, a
pulse at 400 ms (100 ms later, inside the 250 ms debounce window) is
rejected: the state is completely unchanged and the tap counter stays 0. -/
theorem c3_reset_debounce_counterexample :
    (((SoundTapDetector.init 250 500 501 7 2000).handle_tap_interrupt 300).reset_sequence.handle_tap_interrupt 400
        = ((SoundTapDetector.init 250 500 501 7 2000).handle_tap_interrupt 300).reset_sequence) ∧
    (((SoundTapDetector.init 250 500 501 7 2000).handle_tap_interrupt 300).reset_sequence.handle_tap_interrupt 400).current_tap_count = 0 := by
  constructor <;> decide

/-- C3 amended: a reset does not exempt the next pulse from debouncing.
reset_sequence leaves the debounce reference last_tap_time unchanged, so
the first pulse after a reset is accepted (and becomes pulse number one
with the new-pulse flag set) exactly when it arrives more than
debounce_time_ms after the last accepted pulse; a pulse within the
debounce window of the last accepted pulse is still discarded unchanged
even immediately after a reset. -/
theorem c3_reset_acceptance_amended (d : SoundTapDetector) (t : Int) :
    d.reset_sequence.last_tap_time = d.last_tap_time ∧
    (d.debounce_time_ms < ticks_diff t d.last_tap_time →
      (d.reset_sequence.handle_tap_interrupt t).current_tap_count = 1 ∧
      (d.reset_sequence.handle_tap_interrupt t).tap_detected_flag = true ∧
      (d.reset_sequence.handle_tap_interrupt t).current_binary_sequence = []) ∧
    (ticks_diff t d.last_tap_time ≤ d.debounce_time_ms →
      d.reset_sequence.handle_tap_interrupt t = d.reset_sequence) := by
  refine ⟨rfl, fun hacc => ?_, fun hrej => ?_⟩
  · rw [SoundTapDetector.handle_tap_first d.reset_sequence t hacc rfl rfl]
    exact ⟨rfl, rfl, rfl⟩
  · exact SoundTapDetector.handle_tap_rejected d.reset_sequence t hrej

/-- Witness for C3 amended: after an accepted pulse at 300 ms and a
reset, a pulse at 600 ms (beyond the 250 ms debounce window) is accepted
as pulse number one. -/
theorem c3_reset_acceptance_amended_witness :
    ((((SoundTapDetector.init 250 500 501 7 2000).handle_tap_interrupt 300).reset_sequence.handle_tap_interrupt 600).current_tap_count = 1) ∧
    ((((SoundTapDetector.init 250 500 501 7 2000).handle_tap_interrupt 300).reset_sequence.handle_tap_interrupt 450).current_tap_count = 0) := by
  constructor
  · exact ((c3_reset_acceptance_amended
      ((SoundTapDetector.init 250 500 501 7 2000).handle_tap_interrupt 300) 600).2.1 (by decide)).1
  · rw [(c3_reset_acceptance_amended
      ((SoundTapDetector.init 250 500 501 7 2000).handle_tap_interrupt 300) 450).2.2 (by decide)]
    decide

/-! ## Claim C4: constructor validation -/

/-- Counterexample to C4: the claim says construction fails with an
InvalidConfiguration error when the expected pulse count is below 2 or a
duration is non-positive.  The source constructor performs no validation
at all: constructing with expected count 0 and all durations negative
succeeds and yields an ordinary freshly initialised detector. -/
theorem c4_construction_counterexample :
    (SoundTapDetector.init (-1) (-2) (-3) 0 (-4)).total_taps_to_expect = 0 ∧
    (SoundTapDetector.init (-1) (-2) (-3) 0 (-4)).current_tap_count = 0 ∧
    (SoundTapDetector.init (-1) (-2) (-3) 0 (-4)).current_binary_sequence = [] ∧
    (SoundTapDetector.init 250 500 501 1 2000).total_taps_to_expect = 1 := by
  refine ⟨rfl, rfl, rfl, rfl⟩

/-- C4 amended: construction never fails.  For every parameter
combination, in range or not, the constructor records the parameters
verbatim and produces the initial mutable state (zero counter, empty
sequence, both flags clear, both time references zero); no validation of
the expected pulse count or of the durations is performed. -/
theorem c4_construction_amended (a b c n e : Int) :
    (SoundTapDetector.init a b c n e).debounce_time_ms = a ∧
    (SoundTapDetector.init a b c n e).short_tap_max_delay_ms = b ∧
    (SoundTapDetector.init a b c n e).long_tap_min_delay_ms = c ∧
    (SoundTapDetector.init a b c n e).total_taps_to_expect = n ∧
    (SoundTapDetector.init a b c n e).sequence_timeout_ms = e ∧
    (SoundTapDetector.init a b c n e).tap_detected_flag = false ∧
    (SoundTapDetector.init a b c n e).last_tap_time = 0 ∧
    (SoundTapDetector.init a b c n e).current_binary_sequence = [] ∧
    (SoundTapDetector.init a b c n e).last_sequence_tap_time = 0 ∧
    (SoundTapDetector.init a b c n e).full_sequence_ready = false ∧
    (SoundTapDetector.init a b c n e).current_tap_count = 0 :=
  ⟨rfl, rfl, rfl, rfl, rfl, rfl, rfl, rfl, rfl, rfl, rfl⟩

/-! ## Claim C8: classification at the configured boundaries -/

/-- Counterexample to C8: the claim quantifies over every configuration,
but the classifier only compares the gap against short_tap_max_delay_ms
(gap at most short is a period, anything else a dash); the long boundary
is never consulted.  With the overlapping configuration short = 500 and
long = 400, an accepted second pulse with gap exactly 400 =
long_tap_min_delay_ms is classified short (a period), not long. -/
theorem c8_boundary_counterexample :
    ticks_diff 600 200 = (SoundTapDetector.init 100 500 400 7 2000).long_tap_min_delay_ms ∧
    (((SoundTapDetector.init 100 500 400 7 2000).handle_tap_interrupt 200).handle_tap_interrupt 600).current_binary_sequence = ['.'] ∧
    ('.' : Char) ≠ '-' := by
  refine ⟨by decide, by decide, by decide⟩

/-- C8 amended: for every configuration and every accepted non-first
pulse within the expected count, a gap exactly equal to
short_tap_max_delay_ms is classified short (a period appended), and a
gap exactly equal to long_tap_min_delay_ms is classified long (a dash
appended) provided the configuration satisfies short_tap_max_delay_ms <
long_tap_min_delay_ms; the classifier compares only against the short
boundary. -/
theorem c8_boundary_amended (d : SoundTapDetector) (t : Int)
    (hr : d.full_sequence_ready = false)
    (h1 : 1 ≤ d.current_tap_count)
    (h2 : d.current_tap_count + 1 ≤ d.total_taps_to_expect)
    (hacc : d.debounce_time_ms < ticks_diff t d.last_tap_time) :
    (ticks_diff t d.last_sequence_tap_time = d.short_tap_max_delay_ms →
      (d.handle_tap_interrupt t).current_binary_sequence
        = d.current_binary_sequence ++ ['.']) ∧
    (d.short_tap_max_delay_ms < d.long_tap_min_delay_ms →
      ticks_diff t d.last_sequence_tap_time = d.long_tap_min_delay_ms →
      (d.handle_tap_interrupt t).current_binary_sequence
        = d.current_binary_sequence ++ ['-']) := by
  rcases lt_or_eq_of_le h2 with hlt | heq
  · constructor
    · intro hgap
      rw [SoundTapDetector.handle_tap_middle d t hacc hr h1 hlt]
      simp [hgap]
    · intro hord hgap
      rw [SoundTapDetector.handle_tap_middle d t hacc hr h1 hlt]
      simp [hgap, not_le.mpr hord]
  · constructor
    · intro hgap
      rw [SoundTapDetector.handle_tap_final d t hacc hr h1 heq]
      simp [hgap]
    · intro hord hgap
      rw [SoundTapDetector.handle_tap_final d t hacc hr h1 heq]
      simp [hgap, not_le.mpr hord]

/-- Witness for C8 amended: default configuration (short 500, long 501);
after a first accepted pulse at 300 ms, a second pulse at 800 ms (gap
exactly 500) appends a period, and a second pulse at 801 ms (gap exactly
501) appends a dash. -/
theorem c8_boundary_amended_witness :
    (((SoundTapDetector.init 250 500 501 7 2000).handle_tap_interrupt 300).handle_tap_interrupt 800).current_binary_sequence = ['.'] ∧
    (((SoundTapDetector.init 250 500 501 7 2000).handle_tap_interrupt 300).handle_tap_interrupt 801).current_binary_sequence = ['-'] := by
  constructor
  · rw [(c8_boundary_amended
      ((SoundTapDetector.init 250 500 501 7 2000).handle_tap_interrupt 300) 800
      (by decide) (by decide) (by decide) (by decide)).1 (by decide)]
    decide
  · rw [(c8_boundary_amended
      ((SoundTapDetector.init 250 500 501 7 2000).handle_tap_interrupt 300) 801
      (by decide) (by decide) (by decide) (by decide)).2 (by decide) (by decide)]
    decide

/-! ## Claim C6: the timeout poll -/

/-- C6: check_for_timeout reports true and performs a full reset (counter
to 0, code cleared) exactly when a sequence is in progress (positive
counter, completion flag clear) and more than sequence_timeout_ms elapsed
since the last sequence tap; in every other state it reports false and
changes nothing; and any call immediately following a timeout-triggered
reset reports false. -/
theorem c6_timeout_poll (d : SoundTapDetector) (now : Int) :
    ((0 < d.current_tap_count ∧ d.full_sequence_ready = false ∧
        d.sequence_timeout_ms < ticks_diff now d.last_sequence_tap_time) →
      d.check_for_timeout now = (true, d.reset_sequence) ∧
      d.reset_sequence.current_tap_count = 0 ∧
      d.reset_sequence.current_binary_sequence = []) ∧
    ((¬ (0 < d.current_tap_count ∧ d.full_sequence_ready = false ∧
        d.sequence_timeout_ms < ticks_diff now d.last_sequence_tap_time)) →
      d.check_for_timeout now = (false, d)) ∧
    ((d.check_for_timeout now).1 = true →
      ∀ later : Int, (((d.check_for_timeout now).2).check_for_timeout later).1 = false) := by
  refine ⟨fun h => ?_, fun h => ?_, fun hfired later => ?_⟩
  · rw [SoundTapDetector.check_for_timeout, if_pos ⟨h.1, h.2.1⟩, if_pos h.2.2]
    exact ⟨rfl, rfl, rfl⟩
  · rw [SoundTapDetector.check_for_timeout]
    by_cases h1 : 0 < d.current_tap_count ∧ d.full_sequence_ready = false
    · have h2 : ¬ d.sequence_timeout_ms < ticks_diff now d.last_sequence_tap_time := by
        intro h2; exact h ⟨h1.1, h1.2, h2⟩
      rw [if_pos h1, if_neg h2]
    · rw [if_neg h1]
  · have hsnd : (d.check_for_timeout now).2 = d.reset_sequence ∨
        (d.check_for_timeout now).2 = d := by
      rw [SoundTapDetector.check_for_timeout]
      by_cases h1 : 0 < d.current_tap_count ∧ d.full_sequence_ready = false
      · rw [if_pos h1]
        by_cases h2 : ticks_diff now d.last_sequence_tap_time > d.sequence_timeout_ms
        · rw [if_pos h2]; exact Or.inl rfl
        · rw [if_neg h2]; exact Or.inr rfl
      · rw [if_neg h1]; exact Or.inr rfl
    have hfired2 : (d.check_for_timeout now).2 = d.reset_sequence := by
      rcases hsnd with h' | h'
      · exact h'
      · exfalso
        rw [SoundTapDetector.check_for_timeout] at hfired
        by_cases h1 : 0 < d.current_tap_count ∧ d.full_sequence_ready = false
        · rw [if_pos h1] at hfired
          by_cases h2 : ticks_diff now d.last_sequence_tap_time > d.sequence_timeout_ms
          · rw [if_pos h2] at hfired
            have : d = d.reset_sequence := by
              have := congrArg Prod.snd (congrArg (fun b => ((b, d.reset_sequence) : Bool × SoundTapDetector)) hfired)
              simp [SoundTapDetector.check_for_timeout, h1, h2] at h'
              exact h'.symm
            rw [SoundTapDetector.reset_sequence] at this
            have hc := congrArg SoundTapDetector.current_tap_count this
            simp at hc
            omega
          · rw [if_neg h2] at hfired; exact Bool.false_ne_true hfired
        · rw [if_neg h1] at hfired; exact Bool.false_ne_true hfired
    rw [hfired2, SoundTapDetector.check_for_timeout]
    rw [if_neg (by simp [SoundTapDetector.reset_sequence])]

/-- Witness for C6: after one accepted pulse at 300 ms, polling at
2601 ms (idle 2301 ms, beyond the 2000 ms timeout) fires and resets, and
an immediate further poll reports false. -/
theorem c6_timeout_poll_witness :
    ((SoundTapDetector.init 250 500 501 7 2000).handle_tap_interrupt 300).check_for_timeout 2601
      = (true, ((SoundTapDetector.init 250 500 501 7 2000).handle_tap_interrupt 300).reset_sequence) ∧
    (((((SoundTapDetector.init 250 500 501 7 2000).handle_tap_interrupt 300).check_for_timeout 2601).2).check_for_timeout 2651).1 = false := by
  refine ⟨((c6_timeout_poll ((SoundTapDetector.init 250 500 501 7 2000).handle_tap_interrupt 300) 2601).1 (by decide)).1, ?_⟩
  exact (c6_timeout_poll ((SoundTapDetector.init 250 500 501 7 2000).handle_tap_interrupt 300) 2601).2.2 (by decide) 2651

/-! ## Big-endian value of a tap sequence -/

/-- Unfolding bits_value over a head character. -/
theorem bits_value_foldl (s : List Char) : ∀ a : Nat,
    s.foldl (fun acc c => 2 * acc + (if c = '-' then 1 else 0)) a
      = a * 2 ^ s.length + bits_value s := by
  induction s with
  | nil => intro a; simp [bits_value]
  | cons c s ih =>
    intro a
    have hhead : bits_value (c :: s)
        = (if c = '-' then 1 else 0) * 2 ^ s.length + bits_value s := by
      simp only [bits_value, List.foldl_cons]
      rw [ih]
      simp only [bits_value]
      ring_nf
    simp only [List.foldl_cons, List.length_cons, hhead]
    rw [ih, pow_succ]
    ring

/-- bits_value of a cons in closed form. -/
theorem bits_value_cons (c : Char) (s : List Char) :
    bits_value (c :: s) = (if c = '-' then 1 else 0) * 2 ^ s.length + bits_value s := by
  simp only [bits_value, List.foldl_cons]
  rw [bits_value_foldl]
  simp only [bits_value]
  ring_nf

/-- bits_value is bounded by 2 to the length. -/
theorem bits_value_lt (s : List Char) : bits_value s < 2 ^ s.length := by
  induction s with
  | nil => simp [bits_value]
  | cons c s ih =>
    rw [bits_value_cons, List.length_cons, pow_succ]
    have hb : (if c = '-' then (1 : Nat) else 0) ≤ 1 := by split <;> omega
    nlinarith [ih]

/-- bits_value is injective on fixed-length sequences of periods and
dashes. -/
theorem bits_value_inj : ∀ s1 s2 : List Char,
    s1.length = s2.length →
    (∀ c ∈ s1, c = '.' ∨ c = '-') → (∀ c ∈ s2, c = '.' ∨ c = '-') →
    bits_value s1 = bits_value s2 → s1 = s2 := by
  intro s1
  induction s1 with
  | nil =>
    intro s2 hlen _ _ _
    exact (List.length_eq_zero.mp hlen.symm).symm
  | cons c1 t1 ih =>
    intro s2 hlen hv1 hv2 hval
    cases s2 with
    | nil => simp at hlen
    | cons c2 t2 =>
      have hlen2 : t1.length = t2.length := by simpa using hlen
      rw [bits_value_cons, bits_value_cons, hlen2] at hval
      have hb1 : bits_value t1 < 2 ^ t2.length := hlen2 ▸ bits_value_lt t1
      have hb2 : bits_value t2 < 2 ^ t2.length := bits_value_lt t2
      have htail : bits_value t1 = bits_value t2 ∧
          (if c1 = '-' then (1 : Nat) else 0) = (if c2 = '-' then 1 else 0) := by
        revert hval hb1 hb2
        generalize 2 ^ t2.length = k
        intro hval hb1 hb2
        constructor
        · by_cases h1 : c1 = '-' <;> by_cases h2 : c2 = '-' <;>
            simp [h1, h2] at hval ⊢ <;> omega
        · by_cases h1 : c1 = '-' <;> by_cases h2 : c2 = '-' <;>
            simp [h1, h2] at hval ⊢ <;> omega
      have hc : c1 = c2 := by
        rcases hv1 c1 (List.mem_cons_self c1 t1) with h1 | h1 <;>
          rcases hv2 c2 (List.mem_cons_self c2 t2) with h2 | h2 <;>
            simp [h1, h2] at htail ⊢
      rw [hc, ih t2 hlen2 (fun c hcm => hv1 c (List.mem_cons_of_mem c1 hcm))
        (fun c hcm => hv2 c (List.mem_cons_of_mem c2 hcm)) htail.1]

/-- Folding the base-2 parser over the digit-rewritten sequence computes
bits_value of the original sequence of periods and dashes. -/
theorem foldl_map_digits : ∀ (s : List Char),
    (∀ c ∈ s, c = '.' ∨ c = '-') → ∀ a : Nat,
    ((s.map (fun c => if c = '.' then '0' else if c = '-' then '1' else c)).foldl
        (fun acc c => 2 * acc + (if c = '1' then 1 else 0)) a)
      = s.foldl (fun acc c => 2 * acc + (if c = '-' then 1 else 0)) a := by
  intro s
  induction s with
  | nil => intro _ a; rfl
  | cons c t ih =>
    intro hv a
    simp only [List.map_cons, List.foldl_cons]
    rw [ih (fun x hx => hv x (List.mem_cons_of_mem c hx))]
    rcases hv c (List.mem_cons_self c t) with h | h <;> simp [h]

/-- On a sequence of periods and dashes of the expected length, the
decoder returns exactly the big-endian bits_value. -/
theorem binary_sequence_to_integer_eval (d : SoundTapDetector) (s : List Char)
    (hv : ∀ c ∈ s, c = '.' ∨ c = '-')
    (hlen : (s.length : Int) = d.total_taps_to_expect - 1)
    (hne : s ≠ []) :
    d.binary_sequence_to_integer s = some (bits_value s) := by
  have hall : s.all (fun c => c = '.' || c = '-') = true := by
    rw [List.all_eq_true]
    intro c hc
    rcases hv c hc with h | h <;> simp [h]
  have hmapne : s.map (fun c => if c = '.' then '0' else if c = '-' then '1' else c) ≠ [] := by
    simpa using hne
  have hmapall : (s.map (fun c => if c = '.' then '0' else if c = '-' then '1' else c)).all
      (fun c => c = '0' || c = '1') = true := by
    rw [List.all_eq_true]
    intro c hc
    rw [List.mem_map] at hc
    obtain ⟨x, hx, hxc⟩ := hc
    rcases hv x hx with h | h <;> simp [h] at hxc <;> simp [← hxc]
  simp only [SoundTapDetector.binary_sequence_to_integer]
  rw [if_pos hall]
  rw [if_pos (by simpa using hlen)]
  rw [if_neg hmapne, if_pos hmapall]
  rw [foldl_map_digits s hv 0]
  rfl

/-! ## Claim C5: the decode step -/

/-- Counterexample to C5: the claim places the decoded value in the
half-open range from 0 to 2 to the (N-1) minus one, excluded.  With the
default 7-tap configuration, the all-dash sequence of 6 bits decodes to
63, which is not below 2 ^ 6 - 1 = 63; the correct upper bound is 2 ^ 6. -/
theorem c5_decode_counterexample :
    (SoundTapDetector.init 250 500 501 7 2000).binary_sequence_to_integer
        ['-', '-', '-', '-', '-', '-'] = some 63 ∧
    ¬ (63 < 2 ^ (7 - 1) - 1) := by
  refine ⟨by decide, by decide⟩

/-- C5 amended: for a decoder expecting N pulses (N at least 2) and any
sequence of periods and dashes, (a) when the sequence has exactly N-1
characters the decoder returns the big-endian value of the bits, first
character most significant, which lies in the range from 0 up to but
excluding 2 ^ (N-1); (b) for any other length it fails, returning none,
and the decode function by its type touches no decoder state; (c) the
result depends only on the bits and the immutable expected count, not on
any mutable decoder state; (d) the decode is injective over sequences of
periods and dashes of length N-1. -/
theorem c5_decode_amended (d : SoundTapDetector) (N : Nat) (hN : 2 ≤ N)
    (htot : d.total_taps_to_expect = (N : Int)) (s : List Char)
    (hv : ∀ c ∈ s, c = '.' ∨ c = '-') :
    (s.length = N - 1 →
      d.binary_sequence_to_integer s = some (bits_value s) ∧
      bits_value s < 2 ^ (N - 1)) ∧
    (s.length ≠ N - 1 → d.binary_sequence_to_integer s = none) ∧
    (∀ d2 : SoundTapDetector, d2.total_taps_to_expect = d.total_taps_to_expect →
      d2.binary_sequence_to_integer s = d.binary_sequence_to_integer s) ∧
    (∀ s2 : List Char, (∀ c ∈ s2, c = '.' ∨ c = '-') → s2.length = N - 1 →
      s.length = N - 1 →
      d.binary_sequence_to_integer s = d.binary_sequence_to_integer s2 → s = s2) := by
  have hlen_int : ∀ u : List Char, u.length = N - 1 →
      (u.length : Int) = d.total_taps_to_expect - 1 := by
    intro u hu
    rw [htot, hu]
    omega
  have heval : ∀ u : List Char, (∀ c ∈ u, c = '.' ∨ c = '-') → u.length = N - 1 →
      d.binary_sequence_to_integer u = some (bits_value u) := by
    intro u hvu hu
    refine binary_sequence_to_integer_eval d u hvu (hlen_int u hu) ?_
    intro hnil
    rw [hnil] at hu
    simp at hu
    omega
  refine ⟨fun hlen => ⟨heval s hv hlen, ?_⟩, fun hlen => ?_, fun d2 htot2 => ?_, ?_⟩
  · have := bits_value_lt s
    rwa [hlen] at this
  · have hall : s.all (fun c => c = '.' || c = '-') = true := by
      rw [List.all_eq_true]
      intro c hc
      rcases hv c hc with h | h <;> simp [h]
    simp only [SoundTapDetector.binary_sequence_to_integer]
    rw [if_pos hall]
    rw [if_neg ?_]
    simp only [List.length_map, htot]
    omega
  · simp only [SoundTapDetector.binary_sequence_to_integer, htot2]
  · intro s2 hv2 hlen2 hlen1 heq
    rw [heval s hv hlen1, heval s2 hv2 hlen2] at heq
    exact bits_value_inj s s2 (by omega) hv hv2 (Option.some_injective _ heq)

/-- Witness for C5 amended: the spec example sequence period dash period
dash period period decodes to 20 with the default 7-tap configuration,
below 2 ^ 6; the injectivity instance at equal sequences holds. -/
theorem c5_decode_amended_witness :
    (SoundTapDetector.init 250 500 501 7 2000).binary_sequence_to_integer
        ['.', '-', '.', '-', '.', '.'] = some (bits_value ['.', '-', '.', '-', '.', '.']) ∧
    bits_value ['.', '-', '.', '-', '.', '.'] < 2 ^ (7 - 1) ∧
    (SoundTapDetector.init 250 500 501 7 2000).binary_sequence_to_integer ['.', '-'] = none := by
  have h := c5_decode_amended (SoundTapDetector.init 250 500 501 7 2000) 7 (by decide)
    (by decide) ['.', '-', '.', '-', '.', '.'] (by decide)
  have h2 := c5_decode_amended (SoundTapDetector.init 250 500 501 7 2000) 7 (by decide)
    (by decide) ['.', '-'] (by decide)
  exact ⟨(h.1 (by decide)).1, (h.1 (by decide)).2, h2.2.1 (by decide)⟩

/-! ## Running a full train of accepted pulses (claim C1) -/

/-- gaps_code yields one character per timestamp. -/
theorem gaps_code_length (m : Int) : ∀ (p : Int) (ts : List Int),
    (gaps_code m p ts).length = ts.length := by
  intro p ts
  induction ts generalizing p with
  | nil => rfl
  | cons t ts ih => simp [gaps_code, ih]

/-- run_taps over a cons. -/
theorem run_taps_cons (d : SoundTapDetector) (t : Int) (ts : List Int) :
    run_taps d (t :: ts) = run_taps (d.handle_tap_interrupt t) ts := rfl

/-- run_taps over the empty train. -/
theorem run_taps_nil (d : SoundTapDetector) : run_taps d [] = d := rfl

/-- Main run lemma: from a mid-sequence state (at least one tap counted,
completion flag clear, both time references at the previous accepted
pulse) and a nonempty accepted chain of exactly the missing number of
pulses, running the train appends precisely the gap classifications and
ends with the completion flag set. -/
theorem run_taps_mid : ∀ (ts : List Int) (d : SoundTapDetector) (p : Int),
    d.full_sequence_ready = false →
    1 ≤ d.current_tap_count →
    d.current_tap_count + (ts.length : Int) = d.total_taps_to_expect →
    d.last_sequence_tap_time = p →
    d.last_tap_time = p →
    accepted_chain d.debounce_time_ms p ts →
    ts ≠ [] →
    (run_taps d ts).full_sequence_ready = true ∧
    (run_taps d ts).current_binary_sequence
      = d.current_binary_sequence ++ gaps_code d.short_tap_max_delay_ms p ts ∧
    (run_taps d ts).total_taps_to_expect = d.total_taps_to_expect := by
  intro ts
  induction ts with
  | nil => intro d p _ _ _ _ _ _ hne; exact absurd rfl hne
  | cons t rest ih =>
    intro d p hr h1 htot hlseq hltap hchain _
    obtain ⟨hstep, hchain2⟩ := hchain
    have hacc : d.debounce_time_ms < ticks_diff t d.last_tap_time := by
      rw [hltap]; exact hstep
    cases rest with
    | nil =>
      have h2 : d.current_tap_count + 1 = d.total_taps_to_expect := by
        simpa using htot
      rw [run_taps_cons, run_taps_nil,
        SoundTapDetector.handle_tap_final d t hacc hr h1 h2]
      refine ⟨rfl, ?_, rfl⟩
      simp [gaps_code, hlseq, ticks_diff]
    | cons t2 rest2 =>
      have hlt : d.current_tap_count + 1 < d.total_taps_to_expect := by
        simp only [List.length_cons] at htot
        push_cast at htot
        omega
      rw [run_taps_cons, SoundTapDetector.handle_tap_middle d t hacc hr h1 hlt]
      obtain ⟨hready, hseq, htot2⟩ := ih
        { d with tap_detected_flag := true,
                 current_tap_count := d.current_tap_count + 1,
                 current_binary_sequence := d.current_binary_sequence ++
                   [if ticks_diff t d.last_sequence_tap_time ≤ d.short_tap_max_delay_ms
                     then '.' else '-'],
                 last_sequence_tap_time := t, last_tap_time := t }
        t hr (by simp; omega)
        (by simp only [List.length_cons] at htot ⊢; push_cast at htot ⊢; omega)
        rfl rfl hchain2 (by simp)
      refine ⟨hready, ?_, htot2⟩
      rw [hseq]
      simp only [gaps_code, hlseq, ticks_diff, List.append_assoc, List.singleton_append]

/-! ## Claim C1: N accepted pulses complete the sequence with N-1 bits -/

/-- C1: from the initial or freshly reset decoder state (counter 0,
empty sequence, completion flag clear), after exactly N debounce-accepted
pulses (N = total_taps_to_expect, N at least 2) with no timeout or reset
in between, is_sequence_complete reports true, and the accumulated code
is exactly the gap classification of the train: one character per gap
between consecutive accepted pulses, N-1 characters in all, with the
first pulse contributing no character. -/
theorem c1_complete_after_expected_taps (d : SoundTapDetector) (N : Nat)
    (hN : 2 ≤ N) (htot : d.total_taps_to_expect = (N : Int))
    (hc : d.current_tap_count = 0) (hs : d.current_binary_sequence = [])
    (hr : d.full_sequence_ready = false)
    (t : Int) (ts : List Int) (hlen : ts.length = N - 1)
    (hchain : accepted_chain d.debounce_time_ms d.last_tap_time (t :: ts)) :
    ((run_taps d (t :: ts)).is_sequence_complete).1 = true ∧
    (run_taps d (t :: ts)).get_binary_sequence
      = gaps_code d.short_tap_max_delay_ms t ts ∧
    (run_taps d (t :: ts)).get_binary_sequence.length = N - 1 := by
  obtain ⟨hstep, hchain2⟩ := hchain
  have hacc : d.debounce_time_ms < ticks_diff t d.last_tap_time := hstep
  rw [run_taps_cons, SoundTapDetector.handle_tap_first d t hacc hr hc]
  set d1 : SoundTapDetector :=
    { d with tap_detected_flag := true, current_tap_count := 1,
             last_sequence_tap_time := t, last_tap_time := t } with hd1
  have htsne : ts ≠ [] := by
    intro hnil
    rw [hnil] at hlen
    simp at hlen
    omega
  obtain ⟨hready, hseq, htot2⟩ := run_taps_mid ts d1 t
    hr (by simp [hd1]) (by simp [hd1, htot, hlen]; omega) rfl rfl hchain2 htsne
  have hseq2 : (run_taps d1 ts).current_binary_sequence
      = gaps_code d.short_tap_max_delay_ms t ts := by
    rw [hseq]
    simp [hd1, hs]
  have hlength : ((run_taps d1 ts).current_binary_sequence.length : Int)
      = (run_taps d1 ts).total_taps_to_expect - 1 := by
    rw [hseq2, htot2, gaps_code_length, hlen]
    simp [hd1, htot]
    omega
  refine ⟨?_, hseq2, ?_⟩
  · simp only [SoundTapDetector.is_sequence_complete, hready, hlength]
    simp
  · simp only [SoundTapDetector.get_binary_sequence]
    rw [hseq2, gaps_code_length, hlen]

/-- Witness for C1: the spec scenario with N = 7, short boundary 300 ms,
debounce 50 ms, pulses at 100, 200, 600, 700, 1400, 1500, 1600 ms (gaps
100, 400, 100, 700, 100, 100): completion reported, code is the six gap
classifications. -/
theorem c1_complete_after_expected_taps_witness :
    ((run_taps (SoundTapDetector.init 50 300 301 7 2000)
        [100, 200, 600, 700, 1400, 1500, 1600]).is_sequence_complete).1 = true ∧
    (run_taps (SoundTapDetector.init 50 300 301 7 2000)
        [100, 200, 600, 700, 1400, 1500, 1600]).get_binary_sequence
      = gaps_code 300 100 [200, 600, 700, 1400, 1500, 1600] ∧
    (run_taps (SoundTapDetector.init 50 300 301 7 2000)
        [100, 200, 600, 700, 1400, 1500, 1600]).get_binary_sequence.length = 6 :=
  c1_complete_after_expected_taps (SoundTapDetector.init 50 300 301 7 2000) 7
    (by decide) rfl rfl rfl rfl 100 [200, 600, 700, 1400, 1500, 1600]
    rfl (by norm_num [accepted_chain, SoundTapDetector.init])

/-! ## Claim C2: the pulse-count and code-length invariant -/

/-- The polling entry point either leaves the state unchanged or resets
it. -/
theorem check_for_timeout_snd (d : SoundTapDetector) (now : Int) :
    (d.check_for_timeout now).2 = d ∨ (d.check_for_timeout now).2 = d.reset_sequence := by
  rw [SoundTapDetector.check_for_timeout]
  by_cases h1 : 0 < d.current_tap_count ∧ d.full_sequence_ready = false
  · rw [if_pos h1]
    by_cases hp : ticks_diff now d.last_sequence_tap_time > d.sequence_timeout_ms
    · rw [if_pos hp]; exact Or.inr rfl
    · rw [if_neg hp]; exact Or.inl rfl
  · rw [if_neg h1]; exact Or.inl rfl

/-- Counterexample to C2: the claim includes completion consumption
(is_sequence_complete) among the interleaved operations and asserts the
pulse count never exceeds N.  Consuming a completed sequence clears only
the completion flag, leaving the counter at N, so the next accepted pulse
(which skips the implicit reset because the flag is clear) drives the
counter to N + 1; with N = 2, after pulses at 300 and 600 ms, one
consumption and a pulse at 900 ms, the counter is 3 and the code length
1 no longer equals max 0 (counter - 1) = 2 while the flag is clear. -/
theorem c2_invariant_counterexample :
    ((((SoundTapDetector.init 250 500 501 2 2000).handle_tap_interrupt 300).handle_tap_interrupt 600).is_sequence_complete.2.handle_tap_interrupt 900).current_tap_count = 3 ∧
    ((((SoundTapDetector.init 250 500 501 2 2000).handle_tap_interrupt 300).handle_tap_interrupt 600).is_sequence_complete.2.handle_tap_interrupt 900).total_taps_to_expect = 2 ∧
    ¬ ((((SoundTapDetector.init 250 500 501 2 2000).handle_tap_interrupt 300).handle_tap_interrupt 600).is_sequence_complete.2.handle_tap_interrupt 900).current_tap_count
      ≤ (((((SoundTapDetector.init 250 500 501 2 2000).handle_tap_interrupt 300).handle_tap_interrupt 600).is_sequence_complete.2.handle_tap_interrupt 900)).total_taps_to_expect ∧
    ((((SoundTapDetector.init 250 500 501 2 2000).handle_tap_interrupt 300).handle_tap_interrupt 600).is_sequence_complete.2.handle_tap_interrupt 900).full_sequence_ready = false ∧
    ¬ (((((SoundTapDetector.init 250 500 501 2 2000).handle_tap_interrupt 300).handle_tap_interrupt 600).is_sequence_complete.2.handle_tap_interrupt 900).current_binary_sequence.length : Int)
      = max 0 (((((SoundTapDetector.init 250 500 501 2 2000).handle_tap_interrupt 300).handle_tap_interrupt 600).is_sequence_complete.2.handle_tap_interrupt 900).current_tap_count - 1) := by
  refine ⟨by decide, by decide, by decide, by decide, by decide⟩

/-- Invariant of every state reachable from a freshly constructed
detector (expected count at least 2) under ingestion, timeout polling and
reset: the configuration is preserved, the counter is nonnegative, a set
completion flag pins the counter to the expected total with a full-length
code, and a clear flag bounds the counter by total - 1 with the code
length tracking max 0 (counter - 1). -/
theorem reachable_inv (d0 : SoundTapDetector)
    (h2 : 2 ≤ d0.total_taps_to_expect)
    (hc0 : d0.current_tap_count = 0) (hs0 : d0.current_binary_sequence = [])
    (hr0 : d0.full_sequence_ready = false) :
    ∀ d : SoundTapDetector, Reachable d0 d →
    d.total_taps_to_expect = d0.total_taps_to_expect ∧
    0 ≤ d.current_tap_count ∧
    (d.full_sequence_ready = true →
      d.current_tap_count = d.total_taps_to_expect ∧
      (d.current_binary_sequence.length : Int) = d.total_taps_to_expect - 1) ∧
    (d.full_sequence_ready = false →
      d.current_tap_count ≤ d.total_taps_to_expect - 1 ∧
      (d.current_binary_sequence.length : Int) = max 0 (d.current_tap_count - 1)) := by
  intro d hreach
  induction hreach with
  | base =>
    refine ⟨rfl, by omega, fun hrdy => absurd hrdy (by simp [hr0]), fun _ => ?_⟩
    rw [hc0, hs0]
    constructor
    · omega
    · simp
  | @tap d t hprev ih =>
    obtain ⟨htot, h0, hrdy, hnrdy⟩ := ih
    by_cases hdeb : d.debounce_time_ms < ticks_diff t d.last_tap_time
    · cases hfr : d.full_sequence_ready with
      | true =>
        rw [SoundTapDetector.handle_tap_after_complete d t hfr hdeb]
        refine ⟨htot, by simp, fun h => by simp at h, fun _ => ⟨?_, ?_⟩⟩
        · simp
          omega
        · simp
      | false =>
        have hfacts := hnrdy hfr
        by_cases hzero : d.current_tap_count = 0
        · rw [SoundTapDetector.handle_tap_first d t hdeb hfr hzero]
          refine ⟨htot, by simp, fun h => ?_, fun _ => ⟨?_, ?_⟩⟩
          · exfalso
            simp only [] at h
            rw [hfr] at h
            exact Bool.false_ne_true h
          · simp
            omega
          · have hlen : d.current_binary_sequence.length = 0 := by
              have hh := hfacts.2
              omega
            simp [List.length_eq_zero.mp hlen]
        · have h1 : 1 ≤ d.current_tap_count := by omega
          by_cases hfin : d.current_tap_count + 1 = d.total_taps_to_expect
          · rw [SoundTapDetector.handle_tap_final d t hdeb hfr h1 hfin]
            refine ⟨htot, by simp; omega, fun _ => ⟨?_, ?_⟩, fun h => by simp at h⟩
            · simp
              omega
            · simp
              omega
          · have hlt : d.current_tap_count + 1 < d.total_taps_to_expect := by omega
            rw [SoundTapDetector.handle_tap_middle d t hdeb hfr h1 hlt]
            refine ⟨htot, by simp; omega, fun h => ?_, fun _ => ⟨?_, ?_⟩⟩
            · exfalso
              simp only [] at h
              rw [hfr] at h
              exact Bool.false_ne_true h
            · simp
              omega
            · simp
              omega
    · rw [SoundTapDetector.handle_tap_rejected d t (not_lt.mp hdeb)]
      exact ⟨htot, h0, hrdy, hnrdy⟩
  | @poll d now hprev ih =>
    obtain ⟨htot, h0, hrdy, hnrdy⟩ := ih
    rcases check_for_timeout_snd d now with h | h <;> rw [h]
    · exact ⟨htot, h0, hrdy, hnrdy⟩
    · refine ⟨htot, by simp [SoundTapDetector.reset_sequence],
        fun hh => by simp [SoundTapDetector.reset_sequence] at hh, fun _ => ⟨?_, ?_⟩⟩
      · simp [SoundTapDetector.reset_sequence]
        omega
      · simp [SoundTapDetector.reset_sequence]
  | @reset d hprev ih =>
    obtain ⟨htot, h0, hrdy, hnrdy⟩ := ih
    refine ⟨htot, by simp [SoundTapDetector.reset_sequence],
      fun hh => by simp [SoundTapDetector.reset_sequence] at hh, fun _ => ⟨?_, ?_⟩⟩
    · simp [SoundTapDetector.reset_sequence]
      omega
    · simp [SoundTapDetector.reset_sequence]

/-- C2 amended: in every state reachable from a freshly constructed
detector (expected count N at least 2) by any interleaving of ingestion,
timeout polling and explicit reset -- completion consumption excluded,
since consuming a completed sequence leaves the counter at N with the
flag clear and a further pulse then exceeds N -- the pulse count never
exceeds N, and while the completion flag is clear the accumulated code
length equals max 0 (pulse count - 1). -/
theorem c2_pulse_count_bound_amended (a b c n e : Int) (hn : 2 ≤ n)
    (d : SoundTapDetector)
    (hreach : Reachable (SoundTapDetector.init a b c n e) d) :
    d.current_tap_count ≤ d.total_taps_to_expect ∧
    (d.full_sequence_ready = false →
      (d.current_binary_sequence.length : Int) = max 0 (d.current_tap_count - 1)) := by
  obtain ⟨htot, h0, hrdy, hnrdy⟩ :=
    reachable_inv (SoundTapDetector.init a b c n e) hn rfl rfl rfl d hreach
  constructor
  · cases hb : d.full_sequence_ready with
    | true => exact le_of_eq (hrdy hb).1
    | false =>
      have := (hnrdy hb).1
      have htot2 : d.total_taps_to_expect = n := htot
      omega
  · exact fun h => (hnrdy h).2

/-- Witness for C2 amended: the state reached from the default
construction by one accepted pulse at 300 ms satisfies the bound and the
length equation. -/
theorem c2_pulse_count_bound_amended_witness :
    ((SoundTapDetector.init 250 500 501 7 2000).handle_tap_interrupt 300).current_tap_count
      ≤ ((SoundTapDetector.init 250 500 501 7 2000).handle_tap_interrupt 300).total_taps_to_expect ∧
    (((SoundTapDetector.init 250 500 501 7 2000).handle_tap_interrupt 300).full_sequence_ready = false →
      ((((SoundTapDetector.init 250 500 501 7 2000).handle_tap_interrupt 300).current_binary_sequence.length : Int))
        = max 0 (((SoundTapDetector.init 250 500 501 7 2000).handle_tap_interrupt 300).current_tap_count - 1)) :=
  c2_pulse_count_bound_amended 250 500 501 7 2000 (by decide)
    ((SoundTapDetector.init 250 500 501 7 2000).handle_tap_interrupt 300)
    (Reachable.tap 300 Reachable.base)
